import Mathlib

/-!
Verification of the maghpy build orchestrator (src/build_module.py).

The file gives a shallow embedding of the module and settles the frozen
specification claims about it.  The embedding covers:

* Compiler.collect_files - the recursive, exclusion-aware source
  collector (paths are modelled as lists of name components, so that
  os.path.join is list append);
* Compiler.Build - the build pipeline around the external clr
  CompileModules capability, with its ImportError and generic exception
  handlers;
* Application.find_config - the settings bootstrap (create-on-absence,
  strict load, parse failure propagates);
* Application.launch_rhino and Application.compile_plugin - the launcher
  guard and the stage/build/cleanup workflow;
* the timestamp-derived artifact name of compile_plugin.

Python strings are modelled by String; name.lower() and
name.endswith(".py") are modelled by the character-list functions
lowerName and endsWithPy, which agree with the Python operations on the
ASCII names involved.
-/

/-- A filesystem entry: a regular file or a directory with a list of
children.  Directory listings model os.listdir order. -/
inductive FsEntry where
  | file (name : String)
  | dir (name : String) (children : List FsEntry)

/-- The base name of an entry, as seen by os.listdir. -/
def FsEntry.name : FsEntry → String
  | .file n => n
  | .dir n _ => n

/-- Models os.path.isdir on a listed entry. -/
def FsEntry.isDir : FsEntry → Bool
  | .file _ => false
  | .dir _ _ => true

namespace Compiler

/-- The ignore tuple of collect_files:
(os.path.basename(__file__), "__init__.py", "local", "bin"). -/
def ignore_list : List String := ["build_module.py", "__init__.py", "local", "bin"]

/-- Models the Python test name.endswith(".py") (case sensitive). -/
def endsWithPy (s : String) : Bool := List.isSuffixOf [ '.', 'p', 'y' ] s.data

/-- Models the Python expression name.lower() (ASCII names). -/
def lowerName (s : String) : String := ⟨s.data.map Char.toLower⟩

mutual
/-- Embedding of Compiler.collect_files.  A non-directory root yields the
empty list; a directory root is traversed child by child. -/
def collect_files : List String → FsEntry → List (List String)
  | _, .file _ => []
  | path, .dir _ children => collectChildren path children

/-- The body of the for loop of collect_files over os.listdir: the first
branch appends the joined path when the name is not in the ignore tuple
and ends with ".py" (with no check that the entry is a regular file), and
the elif branch recurses into directories whose lowercased name is not in
the ignore tuple. -/
def collectChildren : List String → List FsEntry → List (List String)
  | _, [] => []
  | path, e :: rest =>
      (if e.name ∉ ignore_list ∧ endsWithPy e.name = true then [path ++ [e.name]]
       else if e.isDir = true ∧ lowerName e.name ∉ ignore_list then
         collect_files (path ++ [e.name]) e
       else [])
      ++ collectChildren path rest
end

mutual
/-- Characterisation predicate for collect_files: okPath T rel holds when
the relative path rel is returned by the traversal of T.  The final
component must be an entry (file or directory) whose name is outside the
ignore tuple and ends with ".py"; every intermediate component must be a
directory that fails the inclusion test and whose lowercased name is
outside the ignore tuple. -/
def okPath : FsEntry → List String → Bool
  | .file _, _ => false
  | .dir _ children, rel => okChildren children rel

/-- okPath, one directory level at a time. -/
def okChildren : List FsEntry → List String → Bool
  | _, [] => false
  | [], _ :: _ => false
  | e :: rest, n :: ns =>
      (if e.name = n then
         (match ns with
          | [] => decide (e.name ∉ ignore_list ∧ endsWithPy e.name = true)
          | _ :: _ => decide (¬(e.name ∉ ignore_list ∧ endsWithPy e.name = true)) &&
              e.isDir && decide (lowerName e.name ∉ ignore_list) && okPath e ns)
       else false)
      || okChildren rest (n :: ns)
end

end Compiler

mutual
/-- Models the filesystem lookup of a relative path below an entry,
following os.listdir name matching (first match). -/
def findAt : FsEntry → List String → Option FsEntry
  | t, [] => some t
  | .file _, _ :: _ => none
  | .dir _ ch, n :: ns => findAtChildren ch n ns

/-- findAt over the children of a directory. -/
def findAtChildren : List FsEntry → String → List String → Option FsEntry
  | [], _, _ => none
  | e :: rest, n, ns => if e.name = n then findAt e ns else findAtChildren rest n ns
end

/-- Whether the relative path rel denotes a regular file below T. -/
def isRegularFileAt (t : FsEntry) (rel : List String) : Bool :=
  match findAt t rel with
  | some (.file _) => true
  | _ => false

mutual
/-- The eligibility predicate in the words of claim C3: the relative path
denotes a regular file whose name ends in the recognised suffix and is
not in the exclusion set, and whose every ancestor directory name,
lowercased, is outside the exclusion set. -/
def claimEligible : FsEntry → List String → Bool
  | .file _, _ => false
  | .dir _ ch, rel => claimChildren ch rel

/-- claimEligible, one directory level at a time. -/
def claimChildren : List FsEntry → List String → Bool
  | _, [] => false
  | [], _ :: _ => false
  | e :: rest, n :: ns =>
      (if e.name = n then
        (match ns with
         | [] => (!e.isDir) && decide (n ∉ Compiler.ignore_list) && Compiler.endsWithPy n
         | _ :: _ => e.isDir && decide (Compiler.lowerName n ∉ Compiler.ignore_list) &&
             claimEligible e ns)
       else false) || claimChildren rest (n :: ns)
end

/-- Outcome of an opaque external action (a call that either completes or
raises an exception). -/
inductive Outcome where
  | ok
  | err
deriving DecidableEq

/-- The environment of one Compiler.Build invocation: whether the clr
module can be imported (IronPython present), whether CompileModules
completes or raises, and whether the copy step (os.makedirs plus
shutil.copy2) completes or raises. -/
structure BuildEnv where
  clrAvailable : Bool
  compileOutcome : Outcome
  copyOutcome : Outcome
deriving DecidableEq

/-- Observable result of Compiler.Build: the Python return value (True,
False, or the implicit None of the fall-through ImportError branch),
whether the artifact file exists at export_folder/filename afterwards,
and whether a copy of it exists at copy_target/filename afterwards. -/
structure BuildOutput where
  result : Option Bool
  artifactAtTarget : Bool
  copiedToCopyTarget : Bool
deriving DecidableEq

namespace Compiler

/-- Embedding of Compiler.Build.  The path computations and the
collect_files call do not influence the observable outcome and the
external calls are opaque, so the pipeline is driven by env:

* from clr import CompileModules raises ImportError when the toolchain
  is unavailable: the handler prints BUILD FAILED and falls off the end
  of the function, so Python returns None and no artifact was produced;
* CompileModules raising lands in the generic handler, which prints the
  traceback and returns False;
* on compile success with a truthy copy_target, a failure of the copy
  step also lands in the generic handler (returns False) while the
  artifact built by CompileModules stays at the export path;
* otherwise the function returns True. -/
def Build (env : BuildEnv) (filename source_folder copy_target export_folder : String) :
    BuildOutput :=
  if env.clrAvailable = false then
    { result := none, artifactAtTarget := false, copiedToCopyTarget := false }
  else
    match env.compileOutcome with
    | .err => { result := some false, artifactAtTarget := false, copiedToCopyTarget := false }
    | .ok =>
        if copy_target ≠ "" then
          match env.copyOutcome with
          | .ok => { result := some true, artifactAtTarget := true, copiedToCopyTarget := true }
          | .err => { result := some false, artifactAtTarget := true, copiedToCopyTarget := false }
        else { result := some true, artifactAtTarget := true, copiedToCopyTarget := false }

end Compiler

/-- Content of a file in the settings directory: either a document that
json.load parses to a string-to-string mapping, or a document on which
json.load raises. -/
inductive FileContent where
  | json (entries : List (String × String))
  | malformed
deriving DecidableEq

/-- A directory listing: file names with their contents, in os.listdir
order. -/
abbrev DirListing := List (String × FileContent)

/-- Python dict key lookup on an association list (raises KeyError when
absent, hence Option). -/
def lookupKey (k : String) (m : List (String × String)) : Option String :=
  (m.find? (fun p => p.1 = k)).map (fun p => p.2)

namespace Application

/-- Application.SETTINGS_FILE. -/
def SETTINGS_FILE : String := "maghpy_settings.json"

/-- Application.SETTINGS_DATA, parameterised by the APPDATA environment
value and the directory of the script (os.path.join rendered with a
separator). -/
def SETTINGS_DATA (appdata scriptDir : String) : List (String × String) :=
  [("IRONPYTHONPATH", "C:\\Program Files\\Python\\IronPython27\\ipy.exe"),
   ("RHINOPATH", "C:\\Program Files\\Rhino 7\\System\\Rhino.exe"),
   ("PLUGINPATH", appdata ++ "\\Grasshopper\\Libraries"),
   ("BUILDPATH", scriptDir ++ "\\bin")]

/-- Embedding of Application.find_config.  The settings file name is
looked up in the listing of the script directory; if absent, the default
data is written and (False, empty dict) is returned; if present, the file
is parsed: a malformed document makes json.load raise, which propagates
out of find_config (the error case). -/
def find_config (appdata scriptDir : String) (d : DirListing) :
    Except Unit ((Bool × List (String × String)) × DirListing) :=
  match List.find? (fun p => p.1 = SETTINGS_FILE) d with
  | none => .ok ((false, []), d ++ [(SETTINGS_FILE, .json (SETTINGS_DATA appdata scriptDir))])
  | some (_, .json m) => .ok ((true, m), d)
  | some (_, .malformed) => .error ()

/-- Observable result of Application.launch_rhino. -/
structure LaunchRun where
  launchAttempted : Bool
  result : Option Int
  keyError : Bool
deriving DecidableEq

/-- Embedding of Application.launch_rhino: only when self.is_ready does
it build the command from config_data["RHINOPATH"] (KeyError when the key
is absent) and call subprocess.call, returning its result; otherwise it
reports that the application is not ready and returns None without
launching anything. -/
def launch_rhino (subprocessResult : Int) (is_ready : Bool)
    (config_data : List (String × String)) (launch_grasshopper : Bool) : LaunchRun :=
  if is_ready then
    match lookupKey "RHINOPATH" config_data with
    | some _ => { launchAttempted := true, result := some subprocessResult, keyError := false }
    | none => { launchAttempted := false, result := none, keyError := true }
  else { launchAttempted := false, result := none, keyError := false }

/-- A wall-clock instant as read by datetime.now(). -/
structure DateTime where
  year : Nat
  month : Nat
  day : Nat
  hour : Nat
  minute : Nat
  second : Nat
  microsecond : Nat
deriving DecidableEq

/-- Field ranges of a datetime value (with a four-digit year, the range
in which strftime renders %Y as exactly four digits). -/
def DateTime.valid (t : DateTime) : Prop :=
  1000 ≤ t.year ∧ t.year ≤ 9999 ∧ 1 ≤ t.month ∧ t.month ≤ 12 ∧
    1 ≤ t.day ∧ t.day ≤ 31 ∧ t.hour ≤ 23 ∧ t.minute ≤ 59 ∧
    t.second ≤ 59 ∧ t.microsecond ≤ 999999

instance (t : DateTime) : Decidable t.valid := by
  unfold DateTime.valid; infer_instance

/-- Decimal digit character. -/
def digitChar : Nat → Char
  | 0 => '0' | 1 => '1' | 2 => '2' | 3 => '3' | 4 => '4'
  | 5 => '5' | 6 => '6' | 7 => '7' | 8 => '8' | _ => '9'

/-- The %b month abbreviations of strftime in the C locale. -/
def monthChars : Nat → List Char
  | 1 => [ 'J', 'a', 'n' ]
  | 2 => [ 'F', 'e', 'b' ]
  | 3 => [ 'M', 'a', 'r' ]
  | 4 => [ 'A', 'p', 'r' ]
  | 5 => [ 'M', 'a', 'y' ]
  | 6 => [ 'J', 'u', 'n' ]
  | 7 => [ 'J', 'u', 'l' ]
  | 8 => [ 'A', 'u', 'g' ]
  | 9 => [ 'S', 'e', 'p' ]
  | 10 => [ 'O', 'c', 't' ]
  | 11 => [ 'N', 'o', 'v' ]
  | 12 => [ 'D', 'e', 'c' ]
  | _ => [ 'B', 'a', 'd' ]

/-- Characters of datetime.now().strftime("tapir_gh_%Y_%b_%d-%H_%M_%S.ghpy"):
a fixed prefix, the four year digits, the month abbreviation, and the
zero-padded two-digit day, hour, minute and second.  The microsecond
field of the instant is not rendered at all. -/
def nameChars (t : DateTime) : List Char :=
  't' :: 'a' :: 'p' :: 'i' :: 'r' :: '_' :: 'g' :: 'h' :: '_' ::
  digitChar (t.year / 1000) :: digitChar (t.year / 100 % 10) ::
  digitChar (t.year / 10 % 10) :: digitChar (t.year % 10) :: '_' ::
  (monthChars t.month ++
    ('_' :: digitChar (t.day / 10) :: digitChar (t.day % 10) ::
     '-' :: digitChar (t.hour / 10) :: digitChar (t.hour % 10) ::
     '_' :: digitChar (t.minute / 10) :: digitChar (t.minute % 10) ::
     '_' :: digitChar (t.second / 10) :: digitChar (t.second % 10) ::
     '.' :: 'g' :: 'h' :: 'p' :: 'y' :: []))

/-- The unique artifact name generated inside compile_plugin. -/
def package_name (t : DateTime) : String := ⟨nameChars t⟩

/-- The staging source path root/python-package/src/tapir_py. -/
def package_source (root : String) : String := root ++ "/python-package/src/tapir_py"

/-- The staging target path root/grasshopper-plugin/src/tapir_py. -/
def package_target (root : String) : String := root ++ "/grasshopper-plugin/src/tapir_py"

/-- Observable result of Application.compile_plugin. -/
structure PluginRun where
  stagedDuring : Bool
  stagedAfter : Bool
  sourcePresentAfter : Bool
  buildInvoked : Option BuildOutput
  uncaughtKeyError : Bool
  reportedMissingPackage : Bool
deriving DecidableEq

/-- Embedding of Application.compile_plugin.  When the package source
directory exists it is staged with copy_tree, the timestamp name is
generated, the copy target is read from self.config_data["BUILDPATH"]
(an uncaught KeyError when the key is absent, leaving the staged copy in
place and skipping the build), Compiler.Build runs, and rmtree removes
the staged copy (package_target, which is never the package_source
path).  When the package source directory is missing, an error is
reported and nothing is staged or built. -/
def compile_plugin (env : BuildEnv) (t : DateTime) (config_data : List (String × String))
    (packageSourceExists : Bool) : PluginRun :=
  if packageSourceExists then
    match lookupKey "BUILDPATH" config_data with
    | none =>
        { stagedDuring := true, stagedAfter := true, sourcePresentAfter := true,
          buildInvoked := none, uncaughtKeyError := true, reportedMissingPackage := false }
    | some buildpath =>
        { stagedDuring := true, stagedAfter := false, sourcePresentAfter := true,
          buildInvoked := some (Compiler.Build env (package_name t) "src" buildpath "bin"),
          uncaughtKeyError := false, reportedMissingPackage := false }
  else
    { stagedDuring := false, stagedAfter := false, sourcePresentAfter := false,
      buildInvoked := none, uncaughtKeyError := false, reportedMissingPackage := true }

end Application

/-- The concrete tree refuting claim C3: a directory whose name ends in
".py" containing a regular ".py" file. -/
def c3tree : FsEntry := .dir "plugin" [.dir "sub.py" [.file "a.py"]]

namespace Compiler

theorem okPath_nil (t : FsEntry) : okPath t [] = false := by
  cases t with
  | file n => rfl
  | dir n ch => cases ch <;> rfl

theorem okPath_file (n : String) (rel : List String) : okPath (.file n) rel = false := rfl

theorem okPath_dir (n : String) (ch : List FsEntry) (rel : List String) :
    okPath (.dir n ch) rel = okChildren ch rel := rfl

theorem okChildren_rel_nil (L : List FsEntry) : okChildren L [] = false := by
  cases L <;> rfl

theorem okChildren_nil (rel : List String) : okChildren [] rel = false := by
  cases rel <;> rfl

theorem okChildren_cons_single (e : FsEntry) (rest : List FsEntry) (n : String) :
    okChildren (e :: rest) [n] =
      ((if e.name = n then decide (e.name ∉ ignore_list ∧ endsWithPy e.name = true) else false)
        || okChildren rest [n]) := rfl

theorem okChildren_cons_deep (e : FsEntry) (rest : List FsEntry) (n n1 : String) (ns1 : List String) :
    okChildren (e :: rest) (n :: n1 :: ns1) =
      ((if e.name = n then
          decide (¬(e.name ∉ ignore_list ∧ endsWithPy e.name = true)) &&
            e.isDir && decide (lowerName e.name ∉ ignore_list) && okPath e (n1 :: ns1)
        else false)
        || okChildren rest (n :: n1 :: ns1)) := rfl

theorem collect_files_file (path : List String) (n : String) :
    collect_files path (.file n) = [] := rfl

theorem collect_files_dir (path : List String) (n : String) (ch : List FsEntry) :
    collect_files path (.dir n ch) = collectChildren path ch := rfl

theorem collectChildren_nil (path : List String) : collectChildren path [] = [] := rfl

theorem collectChildren_cons (path : List String) (e : FsEntry) (rest : List FsEntry) :
    collectChildren path (e :: rest) =
      (if e.name ∉ ignore_list ∧ endsWithPy e.name = true then [path ++ [e.name]]
       else if e.isDir = true ∧ lowerName e.name ∉ ignore_list then
         collect_files (path ++ [e.name]) e
       else []) ++ collectChildren path rest := rfl

mutual
/-- Exact membership characterisation of the collector output. -/
theorem mem_collect_files (T : FsEntry) : ∀ (path p : List String),
    p ∈ collect_files path T ↔ ∃ rel, p = path ++ rel ∧ okPath T rel = true := by
  cases T with
  | file n => intro path p; simp [collect_files_file, okPath_file]
  | dir n children =>
      intro path p
      rw [collect_files_dir]
      simp only [okPath_dir]
      exact mem_collectChildren children path p

/-- Membership characterisation for the child loop. -/
theorem mem_collectChildren (L : List FsEntry) : ∀ (path p : List String),
    p ∈ collectChildren path L ↔ ∃ rel, p = path ++ rel ∧ okChildren L rel = true := by
  cases L with
  | nil => intro path p; simp [collectChildren_nil, okChildren_nil]
  | cons e rest =>
      intro path p
      have IHrest := mem_collectChildren rest path p
      rw [collectChildren_cons]
      constructor
      · intro hp
        rcases List.mem_append.mp hp with hbr | hrest
        · by_cases hIC : e.name ∉ ignore_list ∧ endsWithPy e.name = true
          · rw [if_pos hIC] at hbr
            simp only [List.mem_singleton] at hbr
            refine ⟨[e.name], hbr, ?_⟩
            rw [okChildren_cons_single, if_pos rfl]
            simp [hIC]
          · rw [if_neg hIC] at hbr
            by_cases hDC : e.isDir = true ∧ lowerName e.name ∉ ignore_list
            · rw [if_pos hDC] at hbr
              rcases (mem_collect_files e (path ++ [e.name]) p).mp hbr with ⟨rel2, hprel, hok⟩
              refine ⟨e.name :: rel2, by simpa using hprel, ?_⟩
              have hne : rel2 ≠ [] := by
                intro h; rw [h, okPath_nil] at hok; exact Bool.false_ne_true hok
              rcases rel2 with _ | ⟨r1, rs⟩
              · exact absurd rfl hne
              · rw [okChildren_cons_deep, if_pos rfl]
                simp [hIC, hDC.1, hDC.2, hok]
            · rw [if_neg hDC] at hbr; simp at hbr
        · rcases IHrest.mp hrest with ⟨rel, hprel, hok⟩
          rcases rel with _ | ⟨n1, ns1⟩
          · rw [okChildren_rel_nil] at hok; exact absurd hok (by simp)
          · refine ⟨n1 :: ns1, hprel, ?_⟩
            rcases ns1 with _ | ⟨n2, ns2⟩
            · rw [okChildren_cons_single, hok, Bool.or_true]
            · rw [okChildren_cons_deep, hok, Bool.or_true]
      · rintro ⟨rel, rfl, hok⟩
        rcases rel with _ | ⟨n1, ns1⟩
        · rw [okChildren_rel_nil] at hok; exact absurd hok (by simp)
        · rcases ns1 with _ | ⟨n2, ns2⟩
          · rw [okChildren_cons_single] at hok
            rcases Bool.or_eq_true_iff.mp hok with hin | hrest2
            · by_cases hen : e.name = n1
              · rw [if_pos hen] at hin
                simp only [decide_eq_true_eq] at hin
                subst hen
                rw [if_pos hin]
                exact List.mem_append_left _ (by simp)
              · rw [if_neg hen] at hin; exact absurd hin (by simp)
            · exact List.mem_append_right _ (IHrest.mpr ⟨[n1], rfl, hrest2⟩)
          · rw [okChildren_cons_deep] at hok
            rcases Bool.or_eq_true_iff.mp hok with hin | hrest2
            · by_cases hen : e.name = n1
              · rw [if_pos hen] at hin
                simp only [Bool.and_eq_true, decide_eq_true_eq] at hin
                have hfl := hin
                subst hen
                rw [if_neg hfl.1.1.1, if_pos (And.intro hfl.1.1.2 hfl.1.2)]
                apply List.mem_append_left
                exact (mem_collect_files e (path ++ [e.name]) _).mpr
                  (Exists.intro (n2 :: ns2) (And.intro (by simp) hfl.2))
              · rw [if_neg hen] at hin; exact absurd hin (by simp)
            · exact List.mem_append_right _ (IHrest.mpr ⟨n1 :: n2 :: ns2, rfl, hrest2⟩)
end

end Compiler

theorem find?_append_of_none {α : Type} {p : α → Bool} {l1 : List α} (l2 : List α)
    (h : List.find? p l1 = none) : List.find? p (l1 ++ l2) = List.find? p l2 := by
  induction l1 with
  | nil => simp
  | cons a l ih =>
      cases hp : p a with
      | true =>
          rw [List.find?_cons_of_pos _ hp] at h
          cases h
      | false =>
          rw [List.find?_cons_of_neg _ (by simp [hp])] at h
          rw [List.cons_append, List.find?_cons_of_neg _ (by simp [hp])]
          exact ih h

namespace Application

theorem digitChar_inj : ∀ a < 10, ∀ b < 10, digitChar a = digitChar b → a = b := by decide

theorem monthChars_inj : ∀ a < 13, ∀ b < 13, monthChars a = monthChars b → a = b := by decide

theorem monthChars_length (m : Nat) : (monthChars m).length = 3 := by
  unfold monthChars
  split <;> rfl

/-- The artifact name determines the instant up to whole seconds. -/
theorem package_name_determines_seconds (t1 t2 : DateTime) (h1 : t1.valid) (h2 : t2.valid)
    (h : package_name t1 = package_name t2) :
    t1.year = t2.year ∧ t1.month = t2.month ∧ t1.day = t2.day ∧
      t1.hour = t2.hour ∧ t1.minute = t2.minute ∧ t1.second = t2.second := by
  obtain ⟨hy1, hy1b, hm1, hm1b, hd1, hd1b, hh1, hmin1, hs1, hus1⟩ := h1
  obtain ⟨hy2, hy2b, hm2, hm2b, hd2, hd2b, hh2, hmin2, hs2, hus2⟩ := h2
  have hdata : nameChars t1 = nameChars t2 := congrArg String.data h
  simp only [nameChars, List.cons.injEq, true_and] at hdata
  obtain ⟨e1, e2, e3, e4, happ⟩ := hdata
  obtain ⟨hmonth, hrest⟩ :=
    List.append_inj happ (by rw [monthChars_length, monthChars_length])
  simp only [List.cons.injEq, true_and] at hrest
  obtain ⟨f1, f2, g1, g2, k1, k2, l1, l2, -⟩ := hrest
  have hy : t1.year = t2.year := by
    have d1 := digitChar_inj _ (by omega) _ (by omega) e1
    have d2 := digitChar_inj _ (by omega) _ (by omega) e2
    have d3 := digitChar_inj _ (by omega) _ (by omega) e3
    have d4 := digitChar_inj _ (by omega) _ (by omega) e4
    omega
  have hm : t1.month = t2.month := monthChars_inj _ (by omega) _ (by omega) hmonth
  have hd : t1.day = t2.day := by
    have d1 := digitChar_inj _ (by omega) _ (by omega) f1
    have d2 := digitChar_inj _ (by omega) _ (by omega) f2
    omega
  have hh : t1.hour = t2.hour := by
    have d1 := digitChar_inj _ (by omega) _ (by omega) g1
    have d2 := digitChar_inj _ (by omega) _ (by omega) g2
    omega
  have hmin : t1.minute = t2.minute := by
    have d1 := digitChar_inj _ (by omega) _ (by omega) k1
    have d2 := digitChar_inj _ (by omega) _ (by omega) k2
    omega
  have hs : t1.second = t2.second := by
    have d1 := digitChar_inj _ (by omega) _ (by omega) l1
    have d2 := digitChar_inj _ (by omega) _ (by omega) l2
    omega
  exact ⟨hy, hm, hd, hh, hmin, hs⟩

end Application

/-- C1 counterexample: with the compiler available, compilation
succeeding, a copy target set and the copy step failing, Compiler.Build
does not return True: it returns False. -/
theorem c1_counterexample :
    (Compiler.Build ⟨true, .ok, .err⟩ "tapir_gh_2021_May_14-10_30_45.ghpy" "src"
        "C:\\Users\\u\\AppData\\Roaming\\Grasshopper\\Libraries" "bin").result ≠ some true ∧
    (Compiler.Build ⟨true, .ok, .err⟩ "tapir_gh_2021_May_14-10_30_45.ghpy" "src"
        "C:\\Users\\u\\AppData\\Roaming\\Grasshopper\\Libraries" "bin").result = some false := by
  exact ⟨by decide, rfl⟩

/-- C1 amended: when compilation succeeds, a copy target is set and the
post-build copy step fails, the copy exception is caught by the generic
exception handler of Build, which reports the failure and returns False:
the copy failure is elevated to failure of the whole call, while the
already-built artifact remains at the export path. -/
theorem c1_amended (fn sf ct ef : String) (hct : ct ≠ "") :
    Compiler.Build ⟨true, .ok, .err⟩ fn sf ct ef =
      { result := some false, artifactAtTarget := true, copiedToCopyTarget := false } := by
  unfold Compiler.Build
  simp [hct]

theorem c1_amended_witness :
    ("C:\\target" : String) ≠ "" ∧
      Compiler.Build ⟨true, .ok, .err⟩ "a.ghpy" "src" "C:\\target" "bin" =
        { result := some false, artifactAtTarget := true, copiedToCopyTarget := false } :=
  ⟨by decide, c1_amended "a.ghpy" "src" "C:\\target" "bin" (by decide)⟩

/-- C2 counterexample: invoked in the not-ready state (the empty settings
mapping returned by the first find_config run), compile_plugin does not
terminate without staging: it stages the shared package copy and then
raises an uncaught KeyError. -/
theorem c2_counterexample :
    (Application.compile_plugin ⟨true, .ok, .ok⟩ ⟨2021, 5, 14, 10, 30, 45, 0⟩ []
        true).stagedDuring = true ∧
    (Application.compile_plugin ⟨true, .ok, .ok⟩ ⟨2021, 5, 14, 10, 30, 45, 0⟩ []
        true).uncaughtKeyError = true :=
  ⟨rfl, rfl⟩

/-- C2 amended: when isReady is false, launch_rhino reports the not-ready
state and returns without launching; but compile_plugin performs no
readiness check: invoked with the empty settings mapping of the not-ready
state it stages the shared package copy and then raises an uncaught
key-lookup error on BUILDPATH before any build is invoked. -/
theorem c2_amended (subR : Int) (cfg : List (String × String)) (g : Bool)
    (env : BuildEnv) (t : Application.DateTime) :
    (Application.launch_rhino subR false cfg g).launchAttempted = false ∧
    (Application.launch_rhino subR false cfg g).result = none ∧
    (Application.compile_plugin env t [] true).stagedDuring = true ∧
    (Application.compile_plugin env t [] true).stagedAfter = true ∧
    (Application.compile_plugin env t [] true).buildInvoked = none ∧
    (Application.compile_plugin env t [] true).uncaughtKeyError = true :=
  ⟨rfl, rfl, rfl, rfl, rfl, rfl⟩

/-- C3 counterexample: on the tree c3tree the collector neither returns
only regular files (the directory sub.py is returned as an entry) nor
returns exactly the claim-eligible regular files (the file
sub.py/a.py is eligible by the claim yet not returned). -/
theorem c3_counterexample :
    ¬ ((∀ p ∈ Compiler.collect_files [] c3tree, isRegularFileAt c3tree p = true) ∧
       (∀ rel, claimEligible c3tree rel = true ↔ rel ∈ Compiler.collect_files [] c3tree)) := by
  intro h
  have h1 := h.1 ["sub.py"] (by decide)
  revert h1
  decide

/-- C3 amended: collect_files returns exactly the paths whose final
component names an entry (regular file or directory) outside the
exclusion set whose name ends in ".py", and whose every intermediate
component names a directory that fails that inclusion test and whose
lowercased name is outside the exclusion set; a returned entry need not
be a regular file, and an eligible-looking file below a ".py"-named
directory is not returned because such a directory is never descended
into. -/
theorem c3_amended (T : FsEntry) (path p : List String) :
    p ∈ Compiler.collect_files path T ↔
      ∃ rel, p = path ++ rel ∧ Compiler.okPath T rel = true :=
  Compiler.mem_collect_files T path p

/-- C4: when the clr import fails (compilation capability unavailable),
Build reports the failure and produces no artifact, but the ImportError
handler falls off the end of the function: the call returns None, not the
False promised by the docstring. -/
theorem c4_capability_unavailable (fn sf ct ef : String) (co cp : Outcome) :
    Compiler.Build ⟨false, co, cp⟩ fn sf ct ef =
      { result := none, artifactAtTarget := false, copiedToCopyTarget := false } := rfl

/-- C5 counterexample: two distinct instants in the same second (they
differ only in the microsecond field) produce the same artifact name. -/
theorem c5_counterexample :
    (⟨2021, 5, 14, 10, 30, 45, 0⟩ : Application.DateTime) ≠ ⟨2021, 5, 14, 10, 30, 45, 999999⟩ ∧
    Application.package_name ⟨2021, 5, 14, 10, 30, 45, 0⟩ =
      Application.package_name ⟨2021, 5, 14, 10, 30, 45, 999999⟩ :=
  ⟨by decide, rfl⟩

/-- C5 amended: the timestamp-embedded artifact names of two valid
instants differ whenever the instants differ at second granularity or
coarser (year, month, day, hour, minute or second); instants within the
same wall-clock second collide. -/
theorem c5_amended (t1 t2 : Application.DateTime) (h1 : t1.valid) (h2 : t2.valid)
    (hne : (t1.year, t1.month, t1.day, t1.hour, t1.minute, t1.second) ≠
           (t2.year, t2.month, t2.day, t2.hour, t2.minute, t2.second)) :
    Application.package_name t1 ≠ Application.package_name t2 := by
  intro h
  obtain ⟨hy, hm, hd, hh, hmin, hs⟩ :=
    Application.package_name_determines_seconds t1 t2 h1 h2 h
  exact hne (by rw [hy, hm, hd, hh, hmin, hs])

theorem c5_amended_witness :
    (⟨2021, 5, 14, 10, 30, 45, 0⟩ : Application.DateTime).valid ∧
    (⟨2021, 5, 14, 10, 30, 46, 0⟩ : Application.DateTime).valid ∧
    ((⟨2021, 5, 14, 10, 30, 45, 0⟩ : Application.DateTime).year,
     (⟨2021, 5, 14, 10, 30, 45, 0⟩ : Application.DateTime).month,
     (⟨2021, 5, 14, 10, 30, 45, 0⟩ : Application.DateTime).day,
     (⟨2021, 5, 14, 10, 30, 45, 0⟩ : Application.DateTime).hour,
     (⟨2021, 5, 14, 10, 30, 45, 0⟩ : Application.DateTime).minute,
     (⟨2021, 5, 14, 10, 30, 45, 0⟩ : Application.DateTime).second) ≠
    ((⟨2021, 5, 14, 10, 30, 46, 0⟩ : Application.DateTime).year,
     (⟨2021, 5, 14, 10, 30, 46, 0⟩ : Application.DateTime).month,
     (⟨2021, 5, 14, 10, 30, 46, 0⟩ : Application.DateTime).day,
     (⟨2021, 5, 14, 10, 30, 46, 0⟩ : Application.DateTime).hour,
     (⟨2021, 5, 14, 10, 30, 46, 0⟩ : Application.DateTime).minute,
     (⟨2021, 5, 14, 10, 30, 46, 0⟩ : Application.DateTime).second) ∧
    Application.package_name ⟨2021, 5, 14, 10, 30, 45, 0⟩ ≠
      Application.package_name ⟨2021, 5, 14, 10, 30, 46, 0⟩ :=
  ⟨by decide, by decide, by decide,
    c5_amended ⟨2021, 5, 14, 10, 30, 45, 0⟩ ⟨2021, 5, 14, 10, 30, 46, 0⟩
      (by decide) (by decide) (by decide)⟩

/-- C6: with no settings resource present, the first find_config call
returns (False, empty settings) and writes the default data, which
contains all four recognised keys; a second call against the now-present
resource returns (True, exactly the defaults that were written) and
leaves the listing unchanged. -/
theorem c6_theorem (appdata sdir : String) (d : DirListing)
    (h : List.find? (fun p => p.1 = Application.SETTINGS_FILE) d = none) :
    Application.find_config appdata sdir d =
      .ok ((false, []),
        d ++ [(Application.SETTINGS_FILE, .json (Application.SETTINGS_DATA appdata sdir))]) ∧
    (lookupKey "IRONPYTHONPATH" (Application.SETTINGS_DATA appdata sdir)).isSome = true ∧
    (lookupKey "RHINOPATH" (Application.SETTINGS_DATA appdata sdir)).isSome = true ∧
    (lookupKey "PLUGINPATH" (Application.SETTINGS_DATA appdata sdir)).isSome = true ∧
    (lookupKey "BUILDPATH" (Application.SETTINGS_DATA appdata sdir)).isSome = true ∧
    Application.find_config appdata sdir
        (d ++ [(Application.SETTINGS_FILE, .json (Application.SETTINGS_DATA appdata sdir))]) =
      .ok ((true, Application.SETTINGS_DATA appdata sdir),
        d ++ [(Application.SETTINGS_FILE, .json (Application.SETTINGS_DATA appdata sdir))]) := by
  have hfind : List.find? (fun p => p.1 = Application.SETTINGS_FILE)
      (d ++ [(Application.SETTINGS_FILE,
        FileContent.json (Application.SETTINGS_DATA appdata sdir))]) =
      some (Application.SETTINGS_FILE,
        FileContent.json (Application.SETTINGS_DATA appdata sdir)) := by
    rw [find?_append_of_none _ h]
    simp
  refine ⟨?_, rfl, rfl, rfl, rfl, ?_⟩
  · unfold Application.find_config
    rw [h]
  · unfold Application.find_config
    rw [hfind]

theorem c6_theorem_witness :
    List.find? (fun p => p.1 = Application.SETTINGS_FILE) ([] : DirListing) = none ∧
    (Application.find_config "C:\\appdata" "C:\\maghpy" [] =
      .ok ((false, []),
        [] ++ [(Application.SETTINGS_FILE,
          .json (Application.SETTINGS_DATA "C:\\appdata" "C:\\maghpy"))]) ∧
    (lookupKey "IRONPYTHONPATH" (Application.SETTINGS_DATA "C:\\appdata" "C:\\maghpy")).isSome = true ∧
    (lookupKey "RHINOPATH" (Application.SETTINGS_DATA "C:\\appdata" "C:\\maghpy")).isSome = true ∧
    (lookupKey "PLUGINPATH" (Application.SETTINGS_DATA "C:\\appdata" "C:\\maghpy")).isSome = true ∧
    (lookupKey "BUILDPATH" (Application.SETTINGS_DATA "C:\\appdata" "C:\\maghpy")).isSome = true ∧
    Application.find_config "C:\\appdata" "C:\\maghpy"
        ([] ++ [(Application.SETTINGS_FILE,
          .json (Application.SETTINGS_DATA "C:\\appdata" "C:\\maghpy"))]) =
      .ok ((true, Application.SETTINGS_DATA "C:\\appdata" "C:\\maghpy"),
        [] ++ [(Application.SETTINGS_FILE,
          .json (Application.SETTINGS_DATA "C:\\appdata" "C:\\maghpy"))])) :=
  ⟨rfl, c6_theorem "C:\\appdata" "C:\\maghpy" [] rfl⟩

/-- C7: when the package source exists and the settings mapping carries
BUILDPATH, compile_plugin stages, invokes the build (whatever its
outcome), and afterwards the staged copy is gone while the original
package source is still present; the cleanup path (package_target) is
never the package source path. -/
theorem c7_theorem (env : BuildEnv) (t : Application.DateTime)
    (cfg : List (String × String)) (bp root : String)
    (h : lookupKey "BUILDPATH" cfg = some bp) :
    (Application.compile_plugin env t cfg true).stagedDuring = true ∧
    (Application.compile_plugin env t cfg true).stagedAfter = false ∧
    (Application.compile_plugin env t cfg true).sourcePresentAfter = true ∧
    (Application.compile_plugin env t cfg true).buildInvoked =
      some (Compiler.Build env (Application.package_name t) "src" bp "bin") ∧
    Application.package_target root ≠ Application.package_source root := by
  unfold Application.compile_plugin
  rw [h]
  refine ⟨rfl, rfl, rfl, rfl, ?_⟩
  intro hc
  have h2 := congrArg String.length hc
  simp [Application.package_target, Application.package_source, String.length_append] at h2
  exact absurd h2 (by decide)

theorem c7_theorem_witness :
    lookupKey "BUILDPATH" [("BUILDPATH", "C:\\maghpy\\bin")] = some "C:\\maghpy\\bin" ∧
    ((Application.compile_plugin ⟨true, .err, .ok⟩ ⟨2021, 5, 14, 10, 30, 45, 0⟩
        [("BUILDPATH", "C:\\maghpy\\bin")] true).stagedDuring = true ∧
    (Application.compile_plugin ⟨true, .err, .ok⟩ ⟨2021, 5, 14, 10, 30, 45, 0⟩
        [("BUILDPATH", "C:\\maghpy\\bin")] true).stagedAfter = false ∧
    (Application.compile_plugin ⟨true, .err, .ok⟩ ⟨2021, 5, 14, 10, 30, 45, 0⟩
        [("BUILDPATH", "C:\\maghpy\\bin")] true).sourcePresentAfter = true ∧
    (Application.compile_plugin ⟨true, .err, .ok⟩ ⟨2021, 5, 14, 10, 30, 45, 0⟩
        [("BUILDPATH", "C:\\maghpy\\bin")] true).buildInvoked =
      some (Compiler.Build ⟨true, .err, .ok⟩
        (Application.package_name ⟨2021, 5, 14, 10, 30, 45, 0⟩) "src" "C:\\maghpy\\bin" "bin") ∧
    Application.package_target "C:\\repo" ≠ Application.package_source "C:\\repo") :=
  ⟨rfl, c7_theorem ⟨true, .err, .ok⟩ ⟨2021, 5, 14, 10, 30, 45, 0⟩
    [("BUILDPATH", "C:\\maghpy\\bin")] "C:\\maghpy\\bin" "C:\\repo" rfl⟩

/-- C8: a settings resource that is present but malformed makes
find_config raise (the json.load error propagates) instead of returning
default settings. -/
theorem c8_theorem (appdata sdir nm : String) (d : DirListing)
    (h : List.find? (fun p => p.1 = Application.SETTINGS_FILE) d = some (nm, .malformed)) :
    Application.find_config appdata sdir d = .error () := by
  unfold Application.find_config
  rw [h]

theorem c8_theorem_witness :
    List.find? (fun p => p.1 = Application.SETTINGS_FILE)
      ([(Application.SETTINGS_FILE, FileContent.malformed)] : DirListing) =
      some (Application.SETTINGS_FILE, FileContent.malformed) ∧
    Application.find_config "C:\\appdata" "C:\\maghpy"
      [(Application.SETTINGS_FILE, FileContent.malformed)] = .error () :=
  ⟨by decide, c8_theorem "C:\\appdata" "C:\\maghpy" Application.SETTINGS_FILE
    [(Application.SETTINGS_FILE, FileContent.malformed)] (by decide)⟩

/-- C9: file exclusion in collect_files is exact-name and the suffix
check is case sensitive, while directory exclusion is lowercased: a file
whose name differs from an excluded name only in letter case is included;
a file whose suffix differs in case is not; a directory whose lowercased
name is in the exclusion set contributes at most itself as an entry and
is never descended into. -/
theorem c9_theorem (fn dn gn r : String) (dch : List FsEntry) (base : List String)
    (h1 : fn ∉ Compiler.ignore_list) (h2 : Compiler.lowerName fn ∈ Compiler.ignore_list)
    (h3 : Compiler.endsWithPy fn = true) (h4 : Compiler.lowerName dn ∈ Compiler.ignore_list)
    (h5 : Compiler.endsWithPy gn = false) :
    Compiler.collect_files base (.dir r [.file fn]) = [base ++ [fn]] ∧
    (∀ p ∈ Compiler.collect_files base (.dir r [.dir dn dch]), p = base ++ [dn]) ∧
    Compiler.collect_files base (.dir r [.file gn]) = [] := by
  refine ⟨?_, ?_, ?_⟩
  · rw [Compiler.collect_files_dir, Compiler.collectChildren_cons, Compiler.collectChildren_nil]
    rw [if_pos]
    · simp [FsEntry.name]
    · exact ⟨h1, h3⟩
  · intro p hp
    rw [Compiler.collect_files_dir, Compiler.collectChildren_cons,
      Compiler.collectChildren_nil] at hp
    by_cases hc : FsEntry.name (.dir dn dch) ∉ Compiler.ignore_list ∧
        Compiler.endsWithPy (FsEntry.name (.dir dn dch)) = true
    · rw [if_pos hc] at hp
      simpa using hp
    · rw [if_neg hc, if_neg] at hp
      · simp at hp
      · intro hd
        exact absurd h4 hd.2
  · rw [Compiler.collect_files_dir, Compiler.collectChildren_cons, Compiler.collectChildren_nil]
    rw [if_neg, if_neg]
    · simp
    · intro hd
      exact absurd hd.1 (by simp [FsEntry.isDir])
    · intro hc
      rw [show FsEntry.name (.file gn) = gn from rfl, h5] at hc
      exact absurd hc.2 (by simp)

theorem c9_theorem_witness :
    ("__Init__.py" : String) ∉ Compiler.ignore_list ∧
    Compiler.lowerName "__Init__.py" ∈ Compiler.ignore_list ∧
    Compiler.endsWithPy "__Init__.py" = true ∧
    Compiler.lowerName "Local" ∈ Compiler.ignore_list ∧
    Compiler.endsWithPy "a.PY" = false ∧
    (Compiler.collect_files [] (.dir "pkg" [.file "__Init__.py"]) = [[] ++ ["__Init__.py"]] ∧
    (∀ p ∈ Compiler.collect_files [] (.dir "pkg" [.dir "Local" [.file "x.py"]]),
      p = [] ++ ["Local"]) ∧
    Compiler.collect_files [] (.dir "pkg" [.file "a.PY"]) = []) :=
  ⟨by decide, by decide, by decide, by decide, by decide,
    c9_theorem "__Init__.py" "Local" "a.PY" "pkg" [.file "x.py"] []
      (by decide) (by decide) (by decide) (by decide) (by decide)⟩

/-- C10: invoked with a settings mapping lacking BUILDPATH (such as the
empty mapping of the not-ready first run) while the package source
exists, compile_plugin stages the shared package copy, raises a
key-lookup error before any build, and leaves the staged copy on disk
because the cleanup step never runs. -/
theorem c10_theorem (env : BuildEnv) (t : Application.DateTime)
    (cfg : List (String × String)) (h : lookupKey "BUILDPATH" cfg = none) :
    Application.compile_plugin env t cfg true =
      { stagedDuring := true, stagedAfter := true, sourcePresentAfter := true,
        buildInvoked := none, uncaughtKeyError := true, reportedMissingPackage := false } ∧
    lookupKey "BUILDPATH" ([] : List (String × String)) = none := by
  unfold Application.compile_plugin
  rw [h]
  exact ⟨rfl, rfl⟩

theorem c10_theorem_witness :
    lookupKey "BUILDPATH" ([] : List (String × String)) = none ∧
    (Application.compile_plugin ⟨true, .ok, .ok⟩ ⟨2021, 5, 14, 10, 30, 45, 0⟩ [] true =
      { stagedDuring := true, stagedAfter := true, sourcePresentAfter := true,
        buildInvoked := none, uncaughtKeyError := true, reportedMissingPackage := false } ∧
    lookupKey "BUILDPATH" ([] : List (String × String)) = none) :=
  ⟨rfl, c10_theorem ⟨true, .ok, .ok⟩ ⟨2021, 5, 14, 10, 30, 45, 0⟩ [] rfl⟩
